import Mathlib

/-!
Verification of the gwbase 2D sprite batching and rendering pipeline.

The development shallowly embeds the parts of the repository the claims
are about:

* `include/math.hpp` — the checked integer arithmetic templates
  `int_assign_add`, `int_assign_sub`, `int_add`, `int_sub`, modelled over
  `Int` with each C++ integer type represented by its value range and
  value-changing conversions made explicit.
* `src/main.cpp` — the fixed-timestep game loop (timestep clamping, the
  simulation accumulator drain, the interpolation parameter `t`), modelled
  over `ℚ`, and the per-frame call sequence of `render` and the main loop,
  modelled as an event trace.
* `src/glsprite.cpp` and `src/glshader.cpp` are referenced by `main.cpp`
  and the Makefile but their sources are not available; the operations the
  claims need (`generate_quads`, `sprite_effect_draw_batch_ptc`, the batch
  append path, `build_shader` and the descriptor lookups) are modelled
  from the specification, as marked on each definition.
-/

namespace GWBase

/-! ## C++ integer model (include/math.hpp)

A C++ integer type is modelled by its value range `[lo, hi]`.  A
value-changing integral conversion reduces modulo `hi - lo + 1` into the
range, which is the defined behaviour for unsigned targets and the
universal implementation behaviour (mandated since C++20) for signed
targets.  Arithmetic on in-range operands whose mathematical result is
representable is exact, so guard expressions that never leave the range
are modelled as exact `Int` arithmetic. -/

structure CppIntType where
  lo : Int
  hi : Int
deriving DecidableEq, Repr

/-- Conversion of an integer value into the type, wrapping modulo the
number of representable values. -/
def CppIntType.conv (T : CppIntType) (x : Int) : Int :=
  T.lo + (x - T.lo) % (T.hi - T.lo + 1)

/-- Embeds `int_assign_add` (math.hpp, lines 1069-1075): computes the sum
in the operand type `Y`, stores a copy in the destination type `X`, and
assigns (returning `false`) exactly when the copy compares equal and the
two values fall on the same side of `1`; otherwise returns `true` leaving
`dst` unchanged. -/
def int_assign_add (X Y : CppIntType) (dst a b : Int) : Bool × Int :=
  let x := Y.conv (a + b)
  let y := X.conv x
  if x = y ∧ ((x < 1) ↔ (y < 1)) then (false, y) else (true, dst)

/-- Embeds `int_assign_sub` (math.hpp, lines 1084-1090): as
`int_assign_add`, with the difference in place of the sum. -/
def int_assign_sub (X Y : CppIntType) (dst a b : Int) : Bool × Int :=
  let x := Y.conv (a - b)
  let y := X.conv x
  if x = y ∧ ((x < 1) ↔ (y < 1)) then (false, y) else (true, dst)

/-- Embeds `int_add` (math.hpp, lines 1100-1108): guards the addition
against leaving the destination range, then delegates to
`int_assign_add`.  The third type parameter is the declared type of `b`,
which the C++ template carries but whose value the body only compares;
the guard arithmetic (`int_type_min<X>() - b`, `int_type_max<X>() - b`)
never leaves the ranges involved at the instantiations studied here and
is modelled exactly. -/
def int_add (X Y : CppIntType) (_Z : CppIntType) (dst a b : Int) : Bool × Int :=
  if b < 1 then
    if X.lo - b ≤ a then int_assign_add X Y dst a b else (true, dst)
  else
    if X.hi - b ≥ a then int_assign_add X Y dst a b else (true, dst)

/-- Embeds `int_sub` (math.hpp, lines 1119-1127): guards the subtraction
against leaving the destination range, then delegates to
`int_assign_sub`. -/
def int_sub (X Y : CppIntType) (_Z : CppIntType) (dst a b : Int) : Bool × Int :=
  if b < 1 then
    if X.hi + b ≥ a then int_assign_sub X Y dst a b else (true, dst)
  else
    if X.lo + b ≤ a then int_assign_sub X Y dst a b else (true, dst)

/-- The range of `int32_t`. -/
def i32 : CppIntType := ⟨-2147483648, 2147483647⟩

/-- The range of `uint32_t`. -/
def u32 : CppIntType := ⟨0, 4294967295⟩

/-- The range of `uint16_t`. -/
def u16 : CppIntType := ⟨0, 65535⟩

/-! ## Fixed-timestep game loop (src/main.cpp, lines 293-339)

Doubles are modelled as rationals; the constants of main.cpp lines 24-26
are exact in this model. -/

def GW_MIN_TIMESTEP : ℚ := 1 / 1000000

def GW_MAX_TIMESTEP : ℚ := 1 / 4

def GW_SIM_TIMESTEP : ℚ := 1 / 120

/-- Embeds the elapsed-time clamping of main.cpp lines 307-314: first the
upper clamp to `GW_MAX_TIMESTEP`, then the lower clamp to
`GW_MIN_TIMESTEP`, in the source's order. -/
def clamp_elapsed (e : ℚ) : ℚ :=
  let e1 := if e > GW_MAX_TIMESTEP then GW_MAX_TIMESTEP else e
  if e1 < GW_MIN_TIMESTEP then GW_MIN_TIMESTEP else e1

/-- Embeds the inner simulation loop of main.cpp lines 322-329: while the
accumulator is at least `GW_SIM_TIMESTEP`, one simulation step runs and
the accumulator decreases by `GW_SIM_TIMESTEP`. -/
def sim_drain (acc : ℚ) : ℚ :=
  if GW_SIM_TIMESTEP ≤ acc then sim_drain (acc - GW_SIM_TIMESTEP) else acc
termination_by (⌊acc * 120⌋).toNat
decreasing_by
  have h120 : ((acc - GW_SIM_TIMESTEP) * 120 : ℚ) = acc * 120 - 1 := by
    simp [GW_SIM_TIMESTEP]; ring
  have hfl : ⌊(acc - GW_SIM_TIMESTEP) * 120⌋ = ⌊acc * 120⌋ - 1 := by
    rw [h120]; exact Int.floor_sub_one _
  have hone : (1 : Int) ≤ ⌊acc * 120⌋ := by
    rw [Int.le_floor]
    push_cast
    have : (1 : ℚ) / 120 ≤ acc := by simpa [GW_SIM_TIMESTEP] using ‹GW_SIM_TIMESTEP ≤ acc›
    nlinarith
  omega

/-- Embeds one iteration of the main loop's accumulator update
(main.cpp lines 304-329): the clamped elapsed time is added to the
accumulator, then the simulation loop drains it. -/
def frame_accumulator (acc e : ℚ) : ℚ :=
  sim_drain (acc + clamp_elapsed e)

/-- Embeds the interpolation parameter of main.cpp line 332:
`t = accumulator / Step` computed after the drain. -/
def frame_t (acc e : ℚ) : ℚ :=
  frame_accumulator acc e / GW_SIM_TIMESTEP

/-! ## Sprite records and quad generation

The sprite record fields are those of `sprite_t` as populated by
main.cpp lines 162-178.  `glsprite.cpp` is not among the available
sources, so quad generation is modelled from the specification.  The
orientation angle enters the generated geometry only through its rotation
matrix, so the record carries the matrix entries `RotCos`/`RotSin`
(cos and sin of the `Orientation` field); zero orientation is
`RotCos = 1, RotSin = 0`.  Floats are modelled as rationals and the
integer texel fields as rationals as well, so that UV division is exact. -/

structure sprite_t where
  ScreenX : ℚ
  ScreenY : ℚ
  OriginX : ℚ
  OriginY : ℚ
  ScaleX : ℚ
  ScaleY : ℚ
  RotCos : ℚ
  RotSin : ℚ
  TintColor : ℕ
  ImageX : ℚ
  ImageY : ℚ
  ImageWidth : ℚ
  ImageHeight : ℚ
  TextureWidth : ℚ
  TextureHeight : ℚ
  LayerDepth : ℚ
  RenderState : ℕ
deriving DecidableEq, Repr, Inhabited

/-- One generated vertex: transformed position, UV, tint color
(the `sprite_vertex_ptc_t` layout: position, texture, color). -/
structure sprite_vertex_ptc where
  x : ℚ
  y : ℚ
  u : ℚ
  v : ℚ
  rgba : ℕ
deriving DecidableEq, Repr, Inhabited

/-- Modelled from the spec: one vertex of the quad `generate_quads`
(glsprite.cpp, not under src/) derives from a sprite.  `cx, cy` are the
corner's offsets in texels from the source rectangle's upper-left corner.
The position applies, in order: scale about the origin offset, rotation
about the origin offset by the orientation's rotation matrix, and
translation to the screen position.  The UV coordinates divide the source
rectangle corner by the full texture dimensions.  The tint color is
written verbatim. -/
def quad_vertex (spr : sprite_t) (cx cy : ℚ) : sprite_vertex_ptc :=
  let lx := spr.ScaleX * (cx - spr.OriginX)
  let ly := spr.ScaleY * (cy - spr.OriginY)
  { x := spr.ScreenX + (spr.RotCos * lx - spr.RotSin * ly)
    y := spr.ScreenY + (spr.RotSin * lx + spr.RotCos * ly)
    u := (spr.ImageX + cx) / spr.TextureWidth
    v := (spr.ImageY + cy) / spr.TextureHeight
    rgba := spr.TintColor }

/-- Modelled from the spec: the 4 vertices of the quad generated
one-to-one from a sprite record, corners in texel order upper-left,
upper-right, lower-right, lower-left of the source rectangle. -/
def generate_quad (spr : sprite_t) : List sprite_vertex_ptc :=
  [quad_vertex spr 0 0,
   quad_vertex spr spr.ImageWidth 0,
   quad_vertex spr spr.ImageWidth spr.ImageHeight,
   quad_vertex spr 0 spr.ImageHeight]

/-- Modelled from the spec: `generate_quads` (glsprite.cpp, not under
src/) transforms each sprite in the range `[start, start+count)` of the
input array into its quad's vertex data and writes the sprite's render
state tag into the parallel tag array; a pure transform of its inputs. -/
def generate_quads (sprites : List sprite_t) (start count : ℕ) :
    List (List sprite_vertex_ptc) × List ℕ :=
  let rng := (sprites.drop start).take count
  (rng.map generate_quad, rng.map sprite_t.RenderState)

/-- Rotation about a pivot point, used to state the rotation round-trip:
`c, s` are the rotation matrix entries (cos and sin of the angle). -/
def rotate_about (c s px py : ℚ) (p : ℚ × ℚ) : ℚ × ℚ :=
  (px + (c * (p.1 - px) - s * (p.2 - py)),
   py + (s * (p.1 - px) + c * (p.2 - py)))

/-- The positions of a generated quad's 4 vertices. -/
def quad_positions (spr : sprite_t) : List (ℚ × ℚ) :=
  (generate_quad spr).map (fun vtx => (vtx.x, vtx.y))

/-- The UV coordinates of a generated quad's 4 vertices. -/
def quad_uvs (spr : sprite_t) : List (ℚ × ℚ) :=
  (generate_quad spr).map (fun vtx => (vtx.u, vtx.v))

/-! ## Sprite batch storage (glsprite.cpp, modelled from the spec)

The batch owns a growable array of sprite records; `Sprites` is the
backing storage of length `Capacity`, of which the first `Count` entries
are live. -/

structure sprite_batch_t where
  Count : ℕ
  Capacity : ℕ
  Sprites : List sprite_t
deriving DecidableEq, Repr

/-- A well-formed batch: the live count fits the capacity and the backing
storage has exactly `Capacity` slots. -/
def sprite_batch_wf (b : sprite_batch_t) : Prop :=
  b.Count ≤ b.Capacity ∧ b.Sprites.length = b.Capacity

/-- Modelled from the spec: `create_sprite_batch` (glsprite.cpp, not
under src/) creates an empty batch with the given initial capacity. -/
def create_sprite_batch (capacity : ℕ) : sprite_batch_t :=
  { Count := 0, Capacity := capacity,
    Sprites := List.replicate capacity default }

/-- Modelled from the spec: the growth step of the batch append path
(glsprite.cpp, not under src/).  When the needed count exceeds the
capacity, the storage grows geometrically — to the larger of double the
old capacity and the needed count — and the live records are copied into
the new storage, whose fresh slots are default-filled. -/
def sprite_batch_grow (b : sprite_batch_t) (needed : ℕ) : sprite_batch_t :=
  if needed ≤ b.Capacity then b
  else
    let newCap := max needed (2 * b.Capacity)
    { Count := b.Count, Capacity := newCap,
      Sprites := b.Sprites.take b.Count ++
                 List.replicate (newCap - b.Count) default }

/-- Modelled from the spec: appending one sprite record (glsprite.cpp,
not under src/): grow if needed, write the record at index `Count`,
increment the count. -/
def sprite_batch_append (b : sprite_batch_t) (s : sprite_t) : sprite_batch_t :=
  let g := sprite_batch_grow b (b.Count + 1)
  { Count := g.Count + 1, Capacity := g.Capacity,
    Sprites := g.Sprites.set g.Count s }

/-- Modelled from the spec: `flush_sprite_batch` resets the logical count
to zero without releasing storage. -/
def flush_sprite_batch (b : sprite_batch_t) : sprite_batch_t :=
  { b with Count := 0 }

/-! ## Draw-batch run grouping (glsprite.cpp, modelled from the spec)

`sprite_effect_draw_batch_ptc` walks the per-quad render state tags in
submission order, accumulating a run while the tag is unchanged; on a tag
change or at the end of the batch the accumulated run is flushed: one
`apply_state` callback invocation for the run's tag, then one indexed
draw call covering exactly the run's quads (6 indices each, so quads
`[first, first+count)` cover the contiguous index range
`[6*first, 6*(first+count))`). -/

inductive draw_event where
  | apply_state (tag : ℕ)
  | draw_quads (first count : ℕ)
deriving DecidableEq, Repr

/-- Modelled from the spec: the scanning loop of
`sprite_effect_draw_batch_ptc`.  `t` is the current run's tag, `first`
its first quad, `count` the quads accumulated so far; the remaining tags
are scanned in order. -/
def draw_scan (t : ℕ) (first count : ℕ) : List ℕ → List draw_event
  | [] => [.apply_state t, .draw_quads first count]
  | u :: rest =>
    if u = t then
      draw_scan t first (count + 1) rest
    else
      .apply_state t :: .draw_quads first count ::
        draw_scan u (first + count) 1 rest

/-- Modelled from the spec: `sprite_effect_draw_batch_ptc` (glsprite.cpp,
not under src/), as the trace of callback invocations and draw calls it
issues for a batch with the given per-quad tag sequence. -/
def sprite_effect_draw_batch_ptc (tags : List ℕ) : List draw_event :=
  match tags with
  | [] => []
  | t :: rest => draw_scan t 0 1 rest

/-- Prepends `n` occurrences of tag `t` to a run list, merging with the
first run when the tags agree. -/
def consRun (t : ℕ) (n : ℕ) : List (ℕ × ℕ) → List (ℕ × ℕ)
  | [] => [(t, n)]
  | (u, m) :: more =>
    if t = u then (t, n + m) :: more else (t, n) :: (u, m) :: more

/-- Maximal runs of consecutive equal tags, as (tag, length) pairs: the
specification-side description of the grouping. -/
def tag_runs : List ℕ → List (ℕ × ℕ)
  | [] => []
  | t :: rest => consRun t 1 (tag_runs rest)

/-- The trace a run list demands: per run, one `apply_state` with the
run's tag followed by one draw call covering the run's contiguous quad
range, runs laid out consecutively from `first`. -/
def runs_trace (first : ℕ) : List (ℕ × ℕ) → List draw_event
  | [] => []
  | (t, n) :: rest => .apply_state t :: .draw_quads first n :: runs_trace (first + n) rest

/-- Whether a draw event is an `apply_state` invocation. -/
def is_apply (e : draw_event) : Bool :=
  match e with
  | .apply_state _ => true
  | _ => false

/-- Whether a draw event is an indexed draw call. -/
def is_draw (e : draw_event) : Bool :=
  match e with
  | .draw_quads _ _ => true
  | _ => false

/-! ## Shader resource descriptor (glshader.cpp, modelled from the spec)

The descriptor maps semantic names to resolved binding handles.  GLSL
compilation and linking are performed by the GPU driver; they are
modelled as oracle parameters. -/

structure shader_desc_t where
  Attributes : List (String × ℕ)
  Uniforms : List (String × ℕ)
  Samplers : List (String × ℕ)
deriving DecidableEq, Repr

/-- The inert descriptor: no resolved bindings at all. -/
def shader_desc_inert : shader_desc_t :=
  { Attributes := [], Uniforms := [], Samplers := [] }

/-- One shader source stage: a pipeline stage kind (a GLenum value) and
its concatenated source text. -/
structure shader_source_t where
  Stages : List (ℕ × String)
deriving DecidableEq, Repr

/-- Modelled from the spec: `build_shader` (glshader.cpp, not under
src/).  `compile_ok` is the driver's verdict per stage, `link_ok` the
link verdict, `reflect` the descriptor the reflection walk would produce
on success.  Compiles each stage and links; on success returns `true`
with the reflected descriptor, on any compile or link failure returns
`false` and leaves the descriptor in the safe inert state. -/
def build_shader (compile_ok : ℕ → String → Bool) (link_ok : Bool)
    (reflect : shader_desc_t) (src : shader_source_t) : Bool × shader_desc_t :=
  if src.Stages.all (fun st => compile_ok st.1 st.2) && link_ok then
    (true, reflect)
  else
    (false, shader_desc_inert)

/-- Modelled from the spec: `find_attribute` looks a vertex attribute up
by name; `none` models the null handle. -/
def find_attribute (d : shader_desc_t) (name : String) : Option ℕ :=
  (d.Attributes.find? (fun p => p.1 = name)).map Prod.snd

/-- Modelled from the spec: `find_uniform` looks a uniform up by name;
`none` models the null handle. -/
def find_uniform (d : shader_desc_t) (name : String) : Option ℕ :=
  (d.Uniforms.find? (fun p => p.1 = name)).map Prod.snd

/-- Modelled from the spec: `find_sampler` looks a sampler up by name;
`none` models the null handle. -/
def find_sampler (d : shader_desc_t) (name : String) : Option ℕ :=
  (d.Samplers.find? (fun p => p.1 = name)).map Prod.snd

/-! ## Per-frame call sequence (src/main.cpp, lines 152-189 and 301-339)

The calls `render` and the main loop issue, as an event trace in program
order. -/

inductive frame_call where
  | gl_clear
  | flush_batch
  | ensure_batch
  | gen_quads
  | set_viewport
  | draw_batch
  | input_call
  | simulate_call
  | swap_buffers
  | poll_events
deriving DecidableEq, Repr

/-- The calls `render` makes, in program order (main.cpp lines 152-189):
clear the framebuffer, clear the batch via `flush_sprite_batch`, populate
the batch for this frame (`ensure_sprite_batch` reserving the sprite
records appended at lines 162-180), `generate_quads`,
`sprite_effect_set_viewport`, `sprite_effect_draw_batch_ptc`. -/
def render_calls : List frame_call :=
  [.gl_clear, .flush_batch, .ensure_batch, .gen_quads, .set_viewport, .draw_batch]

/-- One iteration of the main loop (main.cpp lines 301-339): input, the
inner simulation loop running `simTicks` times, `render`, then buffer
swap and event polling. -/
def frame_iteration_calls (simTicks : ℕ) : List frame_call :=
  .input_call :: (List.replicate simTicks .simulate_call ++
    (render_calls ++ [.swap_buffers, .poll_events]))

/-- A concrete sprite with zero rotation and unit scale, the full 64×64
texture as its source rectangle, used to instantiate theorems. -/
def spr_unit : sprite_t :=
  { ScreenX := 5, ScreenY := 6, OriginX := 2, OriginY := 3,
    ScaleX := 1, ScaleY := 1, RotCos := 1, RotSin := 0,
    TintColor := 4294967295,
    ImageX := 0, ImageY := 0, ImageWidth := 64, ImageHeight := 64,
    TextureWidth := 64, TextureHeight := 64,
    LayerDepth := 0, RenderState := 7 }

/-- A concrete sprite rotated by the angle whose cosine is 3/5 and sine
is 4/5, used to instantiate the rotation round-trip. -/
def spr_rot : sprite_t :=
  { ScreenX := 10, ScreenY := 20, OriginX := 4, OriginY := 8,
    ScaleX := 2, ScaleY := 3, RotCos := 3 / 5, RotSin := 4 / 5,
    TintColor := 4294967295,
    ImageX := 16, ImageY := 32, ImageWidth := 48, ImageHeight := 24,
    TextureWidth := 64, TextureHeight := 64,
    LayerDepth := 0, RenderState := 9 }

/-- A concrete full batch: capacity 1, one appended sprite. -/
def batch_full : sprite_batch_t :=
  sprite_batch_append (create_sprite_batch 1) spr_unit

/-- A concrete reflected descriptor, with the binding names of
main.cpp lines 104-125. -/
def desc_sample : shader_desc_t :=
  { Attributes := [("aPTX", 0), ("aCLR", 1)],
    Uniforms := [("uMSS", 0)],
    Samplers := [("sTEX", 0)] }

/-- A compile oracle that rejects every source: the driver's verdict on
a deliberately invalid (syntax-error) shader source. -/
def compile_reject : ℕ → String → Bool := fun _ _ => false

/-- A concrete one-stage source list whose vertex stage (GLenum 35633)
fails to compile under `compile_reject`. -/
def src_invalid : shader_source_t :=
  { Stages := [(35633, "bad")] }

/-! # Theorems -/

/-- A value already inside the type's range converts to itself. -/
theorem CppIntType.conv_eq_self (T : CppIntType) (x : Int)
    (h1 : T.lo ≤ x) (h2 : x ≤ T.hi) : T.conv x = x := by
  unfold CppIntType.conv
  have hm : (x - T.lo) % (T.hi - T.lo + 1) = x - T.lo :=
    Int.emod_eq_of_lt (by omega) (by omega)
  omega

/-- On in-range same-type arguments, `int_assign_add` stores the exact
sum when it lies in the range. -/
theorem int_assign_add_in_range (T : CppIntType) (dst a b : Int)
    (h1 : T.lo ≤ a + b) (h2 : a + b ≤ T.hi) :
    int_assign_add T T dst a b = (false, a + b) := by
  simp [int_assign_add, CppIntType.conv_eq_self T (a + b) h1 h2]

/-- On in-range same-type arguments, `int_assign_sub` stores the exact
difference when it lies in the range. -/
theorem int_assign_sub_in_range (T : CppIntType) (dst a b : Int)
    (h1 : T.lo ≤ a - b) (h2 : a - b ≤ T.hi) :
    int_assign_sub T T dst a b = (false, a - b) := by
  simp [int_assign_sub, CppIntType.conv_eq_self T (a - b) h1 h2]

/-- C9 (amended): for integer values `a` and `b` of the destination type
`X` itself (all three template parameters instantiated at the same
integer type, whose range contains 0 and 1), `int_add` returns `false`
and assigns `dst = a + b` exactly when the mathematical sum is
representable in `X`, and returns `true` leaving `dst` unchanged
otherwise; symmetrically `int_sub` for the difference `a - b`. -/
theorem int_add_int_sub_exact (T : CppIntType) (_hlo : T.lo ≤ 0) (_hhi : 1 ≤ T.hi)
    (dst a b : Int) (ha1 : T.lo ≤ a) (ha2 : a ≤ T.hi)
    (_hb1 : T.lo ≤ b) (_hb2 : b ≤ T.hi) :
    (int_add T T T dst a b =
      if T.lo ≤ a + b ∧ a + b ≤ T.hi then (false, a + b) else (true, dst)) ∧
    (int_sub T T T dst a b =
      if T.lo ≤ a - b ∧ a - b ≤ T.hi then (false, a - b) else (true, dst)) := by
  constructor
  · unfold int_add
    by_cases hb : b < 1
    · rw [if_pos hb]
      by_cases hg : T.lo - b ≤ a
      · rw [if_pos hg, int_assign_add_in_range T dst a b (by omega) (by omega),
            if_pos ⟨by omega, by omega⟩]
      · rw [if_neg hg, if_neg (by omega)]
    · rw [if_neg hb]
      by_cases hg : T.hi - b ≥ a
      · rw [if_pos hg, int_assign_add_in_range T dst a b (by omega) (by omega),
            if_pos ⟨by omega, by omega⟩]
      · rw [if_neg hg, if_neg (by omega)]
  · unfold int_sub
    by_cases hb : b < 1
    · rw [if_pos hb]
      by_cases hg : T.hi + b ≥ a
      · rw [if_pos hg, int_assign_sub_in_range T dst a b (by omega) (by omega),
            if_pos ⟨by omega, by omega⟩]
      · rw [if_neg hg, if_neg (by omega)]
    · rw [if_neg hb]
      by_cases hg : T.lo + b ≤ a
      · rw [if_pos hg, int_assign_sub_in_range T dst a b (by omega) (by omega),
            if_pos ⟨by omega, by omega⟩]
      · rw [if_neg hg, if_neg (by omega)]

/-- Witness for C9's amended theorem at the `int32_t` instantiation with
`a = 3`, `b = 4`, `dst = 0`. -/
theorem int_add_int_sub_exact_witness :
    (int_add i32 i32 i32 0 3 4 =
      if i32.lo ≤ 3 + 4 ∧ 3 + 4 ≤ i32.hi then (false, 3 + 4) else (true, 0)) ∧
    (int_sub i32 i32 i32 0 3 4 =
      if i32.lo ≤ 3 - 4 ∧ 3 - 4 ≤ i32.hi then (false, 3 - 4) else (true, 0)) :=
  int_add_int_sub_exact i32 (by decide) (by decide) 0 3 4
    (by decide) (by decide) (by decide) (by decide)

/-- C9 counterexample: at the mixed instantiation
`int_add<uint32_t, uint16_t, uint16_t>` with `a = b = 40000` (all
behaviour defined: the `int`-promoted sum 80000 wraps only at the
defined unsigned conversion to `uint16_t`), the sum 80000 is
representable in the destination type, yet `int_add` returns `false`
and assigns 14464, not the sum. -/
theorem int_add_mixed_counterexample :
    int_add u32 u16 u16 0 40000 40000 = (false, 14464) ∧
    (u32.lo ≤ 40000 + 40000 ∧ 40000 + 40000 ≤ u32.hi) ∧
    (14464 : Int) ≠ 40000 + 40000 := by decide

/-- The clamped elapsed time always lies in the closed interval
from `GW_MIN_TIMESTEP` to `GW_MAX_TIMESTEP`. -/
theorem clamp_elapsed_mem (e : ℚ) :
    GW_MIN_TIMESTEP ≤ clamp_elapsed e ∧ clamp_elapsed e ≤ GW_MAX_TIMESTEP := by
  simp only [clamp_elapsed, GW_MIN_TIMESTEP, GW_MAX_TIMESTEP]
  split_ifs <;> constructor <;> linarith

/-- The simulation drain leaves the accumulator strictly below the
simulation timestep. -/
theorem sim_drain_lt (acc : ℚ) : sim_drain acc < GW_SIM_TIMESTEP := by
  induction acc using sim_drain.induct with
  | case1 acc h ih => rw [sim_drain, if_pos h]; exact ih
  | case2 acc h => rw [sim_drain, if_neg h]; exact lt_of_not_le h

/-- The simulation drain keeps the accumulator nonnegative. -/
theorem sim_drain_nonneg (acc : ℚ) : 0 ≤ acc → 0 ≤ sim_drain acc := by
  induction acc using sim_drain.induct with
  | case1 acc h ih =>
    intro _
    rw [sim_drain, if_pos h]
    refine ih ?_
    have hs : GW_SIM_TIMESTEP = 1 / 120 := rfl
    linarith
  | case2 acc h =>
    intro h0
    rw [sim_drain, if_neg h]
    exact h0

/-- C10: in every main-loop iteration starting from a nonnegative
accumulator, the per-frame elapsed time added to the accumulator is
clamped to the interval from `GW_MIN_TIMESTEP` to `GW_MAX_TIMESTEP`, the
inner simulation loop leaves the accumulator nonnegative and strictly
below `GW_SIM_TIMESTEP`, and the interpolation parameter `t` satisfies
`0 ≤ t < 1`. -/
theorem frame_timestep_t_invariants (acc e : ℚ) (hacc : 0 ≤ acc) :
    (GW_MIN_TIMESTEP ≤ clamp_elapsed e ∧ clamp_elapsed e ≤ GW_MAX_TIMESTEP) ∧
    (0 ≤ frame_accumulator acc e ∧ frame_accumulator acc e < GW_SIM_TIMESTEP) ∧
    (0 ≤ frame_t acc e ∧ frame_t acc e < 1) := by
  have hce := clamp_elapsed_mem e
  have h1 : 0 ≤ acc + clamp_elapsed e := by
    have := hce.1
    unfold GW_MIN_TIMESTEP at this
    linarith
  have h2 : 0 ≤ frame_accumulator acc e := sim_drain_nonneg _ h1
  have h3 : frame_accumulator acc e < GW_SIM_TIMESTEP := sim_drain_lt _
  have hstep : (0 : ℚ) < GW_SIM_TIMESTEP := by norm_num [GW_SIM_TIMESTEP]
  refine ⟨hce, ⟨h2, h3⟩, ?_, ?_⟩
  · exact div_nonneg h2 (le_of_lt hstep)
  · unfold frame_t
    rw [div_lt_one hstep]
    exact h3

/-- Witness for C10 at accumulator 0 and raw elapsed time 1. -/
theorem frame_timestep_t_invariants_witness :
    (0 : ℚ) ≤ 0 ∧
    ((GW_MIN_TIMESTEP ≤ clamp_elapsed 1 ∧ clamp_elapsed 1 ≤ GW_MAX_TIMESTEP) ∧
     (0 ≤ frame_accumulator 0 1 ∧ frame_accumulator 0 1 < GW_SIM_TIMESTEP) ∧
     (0 ≤ frame_t 0 1 ∧ frame_t 0 1 < 1)) :=
  ⟨le_refl 0, frame_timestep_t_invariants 0 1 (le_refl 0)⟩

/-- C8: in every main-loop iteration, regardless of how many simulation
ticks run, the batch clear (`flush_sprite_batch`), the batch population
(`ensure_sprite_batch`), `generate_quads` and
`sprite_effect_draw_batch_ptc` each occur exactly once, in that order,
and all before the buffer swap. -/
theorem frame_call_sequence (n : ℕ) :
    List.Sublist
      [frame_call.flush_batch, frame_call.ensure_batch, frame_call.gen_quads,
       frame_call.draw_batch, frame_call.swap_buffers]
      (frame_iteration_calls n) ∧
    (frame_iteration_calls n).count frame_call.flush_batch = 1 ∧
    (frame_iteration_calls n).count frame_call.ensure_batch = 1 ∧
    (frame_iteration_calls n).count frame_call.gen_quads = 1 ∧
    (frame_iteration_calls n).count frame_call.draw_batch = 1 ∧
    (frame_iteration_calls n).count frame_call.swap_buffers = 1 := by
  constructor
  · unfold frame_iteration_calls
    refine List.Sublist.cons _ ?_
    exact List.Sublist.trans (by decide) (List.sublist_append_right _ _)
  · refine ⟨?_, ?_, ?_, ?_, ?_⟩ <;>
      simp [frame_iteration_calls, render_calls, List.count_cons,
        List.count_append, List.count_replicate]

/-- Prepending twice with the same tag merges into one prepend. -/
theorem consRun_consRun (t a b : ℕ) (R : List (ℕ × ℕ)) :
    consRun t a (consRun t b R) = consRun t (a + b) R := by
  cases R with
  | nil => simp [consRun]
  | cons p more =>
    obtain ⟨u, m⟩ := p
    by_cases h : t = u
    · subst h
      simp [consRun, Nat.add_assoc]
    · simp [consRun, h]

/-- Prepending a different tag in front of a prepended run list only adds
a new head run. -/
theorem consRun_ne (t u : ℕ) (h : t ≠ u) (n m : ℕ) (R : List (ℕ × ℕ)) :
    consRun t n (consRun u m R) = (t, n) :: consRun u m R := by
  cases R with
  | nil => simp [consRun, h]
  | cons p more =>
    obtain ⟨v, k⟩ := p
    by_cases huv : u = v
    · subst huv
      simp [consRun, h]
    · simp [consRun, huv, h]

/-- The scanning loop of the draw batch produces exactly the trace its
accumulated run prepended to the maximal runs of the remaining tags
demands. -/
theorem draw_scan_eq_runs (rest : List ℕ) : ∀ t first count : ℕ,
    draw_scan t first count rest = runs_trace first (consRun t count (tag_runs rest)) := by
  induction rest with
  | nil =>
    intro t first count
    simp [draw_scan, tag_runs, consRun, runs_trace]
  | cons u rs ih =>
    intro t first count
    by_cases h : u = t
    · subst h
      rw [draw_scan, if_pos rfl, ih, tag_runs, consRun_consRun]
    · rw [draw_scan, if_neg h, ih, tag_runs,
          consRun_ne t u (fun he => h he.symm) count 1 (tag_runs rs), runs_trace]

/-- Flattening the maximal runs recovers the tag sequence. -/
theorem tag_runs_flatten (l : List ℕ) :
    (tag_runs l).flatMap (fun r => List.replicate r.2 r.1) = l := by
  induction l with
  | nil => rfl
  | cons t rest ih =>
    rw [tag_runs]
    have hcons : ∀ (n : ℕ) (R : List (ℕ × ℕ)),
        (consRun t n R).flatMap (fun r => List.replicate r.2 r.1) =
          List.replicate n t ++ R.flatMap (fun r => List.replicate r.2 r.1) := by
      intro n R
      cases R with
      | nil => simp [consRun]
      | cons p more =>
        obtain ⟨u, m⟩ := p
        by_cases h : t = u
        · subst h
          rw [consRun, if_pos rfl]
          rw [List.flatMap_cons, List.flatMap_cons, List.replicate_add,
              List.append_assoc]
        · rw [consRun, if_neg h]
          rw [List.flatMap_cons, List.flatMap_cons]
    rw [hcons, ih]
    simp

/-- Adjacent maximal runs carry distinct tags. -/
theorem tag_runs_chain (l : List ℕ) :
    List.Chain' (fun r₁ r₂ : ℕ × ℕ => r₁.1 ≠ r₂.1) (tag_runs l) := by
  induction l with
  | nil => exact List.chain'_nil
  | cons t rest ih =>
    rw [tag_runs]
    revert ih
    cases hR : tag_runs rest with
    | nil =>
      intro _
      simp [consRun]
    | cons p more =>
      obtain ⟨u, m⟩ := p
      intro ih
      by_cases h : t = u
      · subst h
        rw [consRun, if_pos rfl]
        rw [List.chain'_cons'] at ih ⊢
        exact ih
      · rw [consRun, if_neg h]
        exact List.Chain'.cons h ih

/-- Every maximal run is nonempty. -/
theorem tag_runs_pos (l : List ℕ) : ∀ r ∈ tag_runs l, 0 < r.2 := by
  induction l with
  | nil => intro r hr; cases hr
  | cons t rest ih =>
    rw [tag_runs]
    have hcons : ∀ (n : ℕ) (R : List (ℕ × ℕ)), 0 < n → (∀ r ∈ R, 0 < r.2) →
        ∀ r ∈ consRun t n R, 0 < r.2 := by
      intro n R hn hR r hr
      cases R with
      | nil =>
        simp [consRun] at hr
        subst hr
        exact hn
      | cons p more =>
        obtain ⟨u, m⟩ := p
        by_cases h : t = u
        · subst h
          rw [consRun, if_pos rfl] at hr
          rcases List.mem_cons.mp hr with h1 | h1
          · subst h1; exact Nat.lt_of_lt_of_le hn (Nat.le_add_right _ _)
          · exact hR _ (List.mem_cons_of_mem _ h1)
        · rw [consRun, if_neg h] at hr
          rcases List.mem_cons.mp hr with h1 | h1
          · subst h1; exact hn
          · exact hR _ h1
    exact hcons 1 (tag_runs rest) Nat.one_pos ih

/-- The trace of a run list holds one `apply_state` per run. -/
theorem runs_trace_countP_apply (R : List (ℕ × ℕ)) : ∀ first : ℕ,
    (runs_trace first R).countP is_apply = R.length := by
  induction R with
  | nil => intro first; rfl
  | cons p rest ih =>
    intro first
    obtain ⟨t, n⟩ := p
    simp [runs_trace, List.countP_cons, is_apply, ih]

/-- The trace of a run list holds one draw call per run. -/
theorem runs_trace_countP_draw (R : List (ℕ × ℕ)) : ∀ first : ℕ,
    (runs_trace first R).countP is_draw = R.length := by
  induction R with
  | nil => intro first; rfl
  | cons p rest ih =>
    intro first
    obtain ⟨t, n⟩ := p
    simp [runs_trace, List.countP_cons, is_draw, ih]

/-- C1: the draw batch walk emits, in submission order, exactly one
`apply_state` invocation and one draw call per maximal run of
consecutive equal render-state tags, each draw covering that run's
contiguous quad range; the runs flatten back to the tag sequence,
adjacent runs have distinct tags and every run is nonempty, so
non-consecutive equal tags are never merged.  For the tag sequence
`[A, A, B, B, B, A]` (with `A := 7`, `B := 9`) the walk invokes
`apply_state` exactly 3 times and issues exactly 3 draw calls covering
the quad ranges `[0,2)`, `[2,5)`, `[5,6)`. -/
theorem draw_batch_run_grouping :
    (∀ tags : List ℕ,
      sprite_effect_draw_batch_ptc tags = runs_trace 0 (tag_runs tags) ∧
      (tag_runs tags).flatMap (fun r => List.replicate r.2 r.1) = tags ∧
      List.Chain' (fun r₁ r₂ : ℕ × ℕ => r₁.1 ≠ r₂.1) (tag_runs tags) ∧
      (∀ r ∈ tag_runs tags, 0 < r.2) ∧
      (sprite_effect_draw_batch_ptc tags).countP is_apply = (tag_runs tags).length ∧
      (sprite_effect_draw_batch_ptc tags).countP is_draw = (tag_runs tags).length) ∧
    sprite_effect_draw_batch_ptc [7, 7, 9, 9, 9, 7] =
      [.apply_state 7, .draw_quads 0 2, .apply_state 9, .draw_quads 2 3,
       .apply_state 7, .draw_quads 5 1] ∧
    (sprite_effect_draw_batch_ptc [7, 7, 9, 9, 9, 7]).countP is_apply = 3 ∧
    (sprite_effect_draw_batch_ptc [7, 7, 9, 9, 9, 7]).countP is_draw = 3 := by
  have htrace : ∀ tags : List ℕ,
      sprite_effect_draw_batch_ptc tags = runs_trace 0 (tag_runs tags) := by
    intro tags
    cases tags with
    | nil => rfl
    | cons t rest =>
      rw [sprite_effect_draw_batch_ptc, draw_scan_eq_runs, tag_runs]
  refine ⟨fun tags => ⟨htrace tags, tag_runs_flatten tags, tag_runs_chain tags,
    tag_runs_pos tags, ?_, ?_⟩, by decide, by decide, by decide⟩
  · rw [htrace tags, runs_trace_countP_apply]
  · rw [htrace tags, runs_trace_countP_draw]

/-- C2: for every sprite with zero orientation (rotation matrix entries
1 and 0) and unit scale, the generated quad's 4 vertex positions are the
screen position offset by the unscaled, unrotated corner extents
relative to the origin offset. -/
theorem quad_positions_zero_rotation_unit_scale (spr : sprite_t)
    (hc : spr.RotCos = 1) (hs : spr.RotSin = 0)
    (hx : spr.ScaleX = 1) (hy : spr.ScaleY = 1) :
    quad_positions spr =
      [(spr.ScreenX + (0 - spr.OriginX), spr.ScreenY + (0 - spr.OriginY)),
       (spr.ScreenX + (spr.ImageWidth - spr.OriginX), spr.ScreenY + (0 - spr.OriginY)),
       (spr.ScreenX + (spr.ImageWidth - spr.OriginX),
        spr.ScreenY + (spr.ImageHeight - spr.OriginY)),
       (spr.ScreenX + (0 - spr.OriginX),
        spr.ScreenY + (spr.ImageHeight - spr.OriginY))] := by
  simp [quad_positions, generate_quad, quad_vertex, hc, hs, hx, hy]

/-- Witness for C2 at the concrete unit sprite. -/
theorem quad_positions_zero_rotation_unit_scale_witness :
    (spr_unit.RotCos = 1 ∧ spr_unit.RotSin = 0 ∧
     spr_unit.ScaleX = 1 ∧ spr_unit.ScaleY = 1) ∧
    quad_positions spr_unit =
      [(spr_unit.ScreenX + (0 - spr_unit.OriginX),
        spr_unit.ScreenY + (0 - spr_unit.OriginY)),
       (spr_unit.ScreenX + (spr_unit.ImageWidth - spr_unit.OriginX),
        spr_unit.ScreenY + (0 - spr_unit.OriginY)),
       (spr_unit.ScreenX + (spr_unit.ImageWidth - spr_unit.OriginX),
        spr_unit.ScreenY + (spr_unit.ImageHeight - spr_unit.OriginY)),
       (spr_unit.ScreenX + (0 - spr_unit.OriginX),
        spr_unit.ScreenY + (spr_unit.ImageHeight - spr_unit.OriginY))] :=
  ⟨⟨rfl, rfl, rfl, rfl⟩,
   quad_positions_zero_rotation_unit_scale spr_unit rfl rfl rfl rfl⟩

/-- C3: every generated vertex's UV coordinates divide the source
rectangle corner by the full texture dimensions; for a sprite whose
source rectangle covers the full (nonzero) texture, the quad's UV
rectangle is `(0,0)-(1,1)`. -/
theorem quad_uvs_normalized (spr : sprite_t)
    (hW : spr.TextureWidth ≠ 0) (hH : spr.TextureHeight ≠ 0)
    (hx : spr.ImageX = 0) (hy : spr.ImageY = 0)
    (hw : spr.ImageWidth = spr.TextureWidth)
    (hh : spr.ImageHeight = spr.TextureHeight) :
    (∀ cx cy : ℚ,
      (quad_vertex spr cx cy).u = (spr.ImageX + cx) / spr.TextureWidth ∧
      (quad_vertex spr cx cy).v = (spr.ImageY + cy) / spr.TextureHeight) ∧
    quad_uvs spr = [(0, 0), (1, 0), (1, 1), (0, 1)] := by
  constructor
  · intro cx cy
    exact ⟨rfl, rfl⟩
  · simp [quad_uvs, generate_quad, quad_vertex, hx, hy, hw, hh,
      div_self hW, div_self hH]

/-- Witness for C3 at the concrete sprite covering its full 64×64
texture. -/
theorem quad_uvs_normalized_witness :
    (spr_unit.TextureWidth ≠ 0 ∧ spr_unit.TextureHeight ≠ 0 ∧
     spr_unit.ImageX = 0 ∧ spr_unit.ImageY = 0 ∧
     spr_unit.ImageWidth = spr_unit.TextureWidth ∧
     spr_unit.ImageHeight = spr_unit.TextureHeight) ∧
    ((∀ cx cy : ℚ,
      (quad_vertex spr_unit cx cy).u = (spr_unit.ImageX + cx) / spr_unit.TextureWidth ∧
      (quad_vertex spr_unit cx cy).v = (spr_unit.ImageY + cy) / spr_unit.TextureHeight) ∧
    quad_uvs spr_unit = [(0, 0), (1, 0), (1, 1), (0, 1)]) :=
  ⟨⟨by norm_num [spr_unit], by norm_num [spr_unit], rfl, rfl, rfl, rfl⟩,
   quad_uvs_normalized spr_unit (by norm_num [spr_unit]) (by norm_num [spr_unit])
     rfl rfl rfl rfl⟩

/-- C4: `generate_quads` is deterministic — two calls on identical
inputs (same sprite array, same range) produce identical vertex and tag
arrays; the transform is a pure function of its inputs. -/
theorem generate_quads_deterministic (s₁ s₂ : List sprite_t)
    (a₁ a₂ c₁ c₂ : ℕ) (hs : s₁ = s₂) (ha : a₁ = a₂) (hc : c₁ = c₂) :
    generate_quads s₁ a₁ c₁ = generate_quads s₂ a₂ c₂ := by
  subst hs
  subst ha
  subst hc
  rfl

/-- Witness for C4 at a concrete one-sprite array. -/
theorem generate_quads_deterministic_witness :
    generate_quads [spr_unit] 0 1 = generate_quads [spr_unit] 0 1 :=
  generate_quads_deterministic [spr_unit] [spr_unit] 0 0 1 1 rfl rfl rfl

/-- Rotating back about the pivot inverts the forward rotation applied
to a point, whenever the matrix entries satisfy the circle identity. -/
theorem rotate_about_inv (c s px py lx ly : ℚ) (h : c ^ 2 + s ^ 2 = 1) :
    rotate_about c (-s) px py (px + (c * lx - s * ly), py + (s * lx + c * ly)) =
      (px + lx, py + ly) := by
  unfold rotate_about
  rw [Prod.mk.injEq]
  constructor
  · ring_nf
    linear_combination lx * h
  · ring_nf
    linear_combination ly * h

/-- C5: generating a quad at orientation θ (matrix entries `c, s`) and
rotating the resulting vertex positions by −θ about the screen position
reproduces the quad generated with zero rotation — exactly, in the
rational model, hence within floating-point tolerance in the source. -/
theorem quad_rotation_roundtrip (spr : sprite_t)
    (h : spr.RotCos ^ 2 + spr.RotSin ^ 2 = 1) :
    (quad_positions spr).map
        (rotate_about spr.RotCos (-spr.RotSin) spr.ScreenX spr.ScreenY) =
      quad_positions { spr with RotCos := 1, RotSin := 0 } := by
  simp only [quad_positions, generate_quad, quad_vertex, List.map_cons,
    List.map_nil]
  rw [rotate_about_inv _ _ _ _ _ _ h, rotate_about_inv _ _ _ _ _ _ h,
      rotate_about_inv _ _ _ _ _ _ h, rotate_about_inv _ _ _ _ _ _ h]
  simp

/-- Witness for C5 at the concrete rotated sprite (cos 3/5, sin 4/5). -/
theorem quad_rotation_roundtrip_witness :
    spr_rot.RotCos ^ 2 + spr_rot.RotSin ^ 2 = 1 ∧
    (quad_positions spr_rot).map
        (rotate_about spr_rot.RotCos (-spr_rot.RotSin) spr_rot.ScreenX spr_rot.ScreenY) =
      quad_positions { spr_rot with RotCos := 1, RotSin := 0 } :=
  ⟨by norm_num [spr_rot], quad_rotation_roundtrip spr_rot (by norm_num [spr_rot])⟩

/-- C6: appending to a well-formed batch keeps it well-formed, leaves
every previously appended sprite record unchanged at its index, writes
the new record at index `Count`, and, when the batch was full, grows the
capacity geometrically (to at least double). -/
theorem sprite_batch_append_preserves (b : sprite_batch_t) (s : sprite_t)
    (hwf : sprite_batch_wf b) :
    sprite_batch_wf (sprite_batch_append b s) ∧
    (sprite_batch_append b s).Count = b.Count + 1 ∧
    (∀ i, i < b.Count → (sprite_batch_append b s).Sprites[i]? = b.Sprites[i]?) ∧
    (sprite_batch_append b s).Sprites[b.Count]? = some s ∧
    (b.Count = b.Capacity → 2 * b.Capacity ≤ (sprite_batch_append b s).Capacity) := by
  obtain ⟨hcnt, hlen⟩ := hwf
  by_cases hg : b.Count + 1 ≤ b.Capacity
  · simp only [sprite_batch_append, sprite_batch_grow, if_pos hg]
    have hidx : b.Count < b.Sprites.length := by omega
    refine ⟨⟨hg, ?_⟩, ?_, ?_, ?_, ?_⟩
    · rw [List.length_set, hlen]
    · trivial
    · intro i hi
      exact List.getElem?_set_ne (Ne.symm (Nat.ne_of_lt hi))
    · exact List.getElem?_set_self hidx
    · intro hfull
      omega
  · simp only [sprite_batch_append, sprite_batch_grow, if_neg hg]
    have hfull : b.Count = b.Capacity := by omega
    have htk : (b.Sprites.take b.Count).length = b.Count := by
      rw [List.length_take]
      omega
    have hlen2 : (b.Sprites.take b.Count ++
        List.replicate (max (b.Count + 1) (2 * b.Capacity) - b.Count)
          (default : sprite_t)).length = max (b.Count + 1) (2 * b.Capacity) := by
      rw [List.length_append, htk, List.length_replicate]
      omega
    refine ⟨⟨?_, ?_⟩, ?_, ?_, ?_, ?_⟩
    · exact Nat.succ_le_of_lt (Nat.lt_of_lt_of_le (Nat.lt_succ_self _)
        (le_max_left _ _))
    · rw [List.length_set, hlen2]
    · trivial
    · intro i hi
      rw [List.getElem?_set_ne (Ne.symm (Nat.ne_of_lt hi)),
          List.getElem?_append, if_pos (by omega),
          List.getElem?_take, if_pos hi]
    · have hidx : b.Count < (b.Sprites.take b.Count ++
          List.replicate (max (b.Count + 1) (2 * b.Capacity) - b.Count)
            (default : sprite_t)).length := by
        rw [hlen2]
        omega
      exact List.getElem?_set_self hidx
    · intro _
      exact le_max_right _ _

/-- Witness for C6 at the concrete full batch (count 1 = capacity 1)
with a second sprite appended. -/
theorem sprite_batch_append_preserves_witness :
    sprite_batch_wf batch_full ∧
    (sprite_batch_wf (sprite_batch_append batch_full spr_rot) ∧
     (sprite_batch_append batch_full spr_rot).Count = batch_full.Count + 1 ∧
     (∀ i, i < batch_full.Count →
       (sprite_batch_append batch_full spr_rot).Sprites[i]? = batch_full.Sprites[i]?) ∧
     (sprite_batch_append batch_full spr_rot).Sprites[batch_full.Count]? = some spr_rot ∧
     (batch_full.Count = batch_full.Capacity →
       2 * batch_full.Capacity ≤ (sprite_batch_append batch_full spr_rot).Capacity)) :=
  ⟨⟨by decide, by decide⟩,
   sprite_batch_append_preserves batch_full spr_rot ⟨by decide, by decide⟩⟩

/-- C7: when any stage of the source fails to compile (or the link
fails), `build_shader` returns failure with the descriptor left in the
safe inert state, and every subsequent `find_attribute`, `find_uniform`
or `find_sampler` lookup on that descriptor returns the null handle for
every name. -/
theorem build_shader_failure (compile_ok : ℕ → String → Bool) (link_ok : Bool)
    (reflect : shader_desc_t) (src : shader_source_t)
    (h : ∃ st ∈ src.Stages, compile_ok st.1 st.2 = false) :
    build_shader compile_ok link_ok reflect src = (false, shader_desc_inert) ∧
    ∀ name : String,
      find_attribute (build_shader compile_ok link_ok reflect src).2 name = none ∧
      find_uniform (build_shader compile_ok link_ok reflect src).2 name = none ∧
      find_sampler (build_shader compile_ok link_ok reflect src).2 name = none := by
  have hall : src.Stages.all (fun st => compile_ok st.1 st.2) = false := by
    obtain ⟨st, hmem, hst⟩ := h
    rw [List.all_eq_false]
    exact ⟨st, hmem, by simp [hst]⟩
  have hb : build_shader compile_ok link_ok reflect src = (false, shader_desc_inert) := by
    unfold build_shader
    rw [hall]
    simp
  refine ⟨hb, fun name => ?_⟩
  rw [hb]
  exact ⟨rfl, rfl, rfl⟩

/-- Witness for C7 at the concrete rejected one-stage source. -/
theorem build_shader_failure_witness :
    (∃ st ∈ src_invalid.Stages, compile_reject st.1 st.2 = false) ∧
    (build_shader compile_reject true desc_sample src_invalid = (false, shader_desc_inert) ∧
     ∀ name : String,
       find_attribute (build_shader compile_reject true desc_sample src_invalid).2 name = none ∧
       find_uniform (build_shader compile_reject true desc_sample src_invalid).2 name = none ∧
       find_sampler (build_shader compile_reject true desc_sample src_invalid).2 name = none) :=
  ⟨⟨(35633, "bad"), by simp [src_invalid], rfl⟩,
   build_shader_failure compile_reject true desc_sample src_invalid
     ⟨(35633, "bad"), by simp [src_invalid], rfl⟩⟩

end GWBase
